import Mathlib

/-!
Verification development for the `fown` CLI's archive-file engine
(`src/fown/cli/file.py`, with the resolver variants in `label.py` and
`script.py`).  The Python code is shallowly embedded: remote trees become
inductive trees, the GitHub transport becomes an explicit response map,
exceptions become `Except` / event traces, and the interactive loops become
one-iteration step functions parameterized by the user's answers.
-/

namespace Fown

/-! ## Character/string helpers

`pathlib.Path(p).parent` / `.name` and `str.strip().lower()` / `str.isdigit`
are embedded at the character-list level so that all functions reduce in the
kernel. -/

/-- Split a character list on the '/' separator (like `p.split("/")`). -/
def splitSlash : List Char → List (List Char)
  | [] => [[]]
  | c :: rest =>
    if c = '/' then [] :: splitSlash rest
    else
      match splitSlash rest with
      | [] => [[c]]
      | h :: t => (c :: h) :: t

/-- Join character lists with '/' (inverse of `splitSlash` on its segments). -/
def joinSlash : List (List Char) → List Char
  | [] => []
  | [x] => x
  | x :: y :: t => x ++ '/' :: joinSlash (y :: t)

/-- `str(Path(p).parent)`: drop the last '/'-segment; a single segment has
parent `"."` (CPython `pathlib` behaviour). -/
def parentStr (p : String) : String :=
  let parts := splitSlash p.toList
  if parts.length ≤ 1 then "." else String.mk (joinSlash parts.dropLast)

/-- `Path(p).name`: the last '/'-segment. -/
def baseName (p : String) : String :=
  String.mk ((splitSlash p.toList).getLastD [])

/-- Does the first character list start the second one? -/
def startsWithL : List Char → List Char → Bool
  | [], _ => true
  | _ :: _, [] => false
  | a :: as, b :: bs => a = b && startsWithL as bs

/-- Python's substring test `pat in s`, at the character-list level. -/
def substrIn (pat : List Char) : List Char → Bool
  | [] => pat.isEmpty
  | c :: rest => startsWithL pat (c :: rest) || substrIn pat rest

/-- Whitespace recognised by Python's `str.strip()` (the cases that matter). -/
def isSpaceC (c : Char) : Bool :=
  c = ' ' || c = '\t' || c = '\n' || c = '\r'

/-- `str.strip()` at the character-list level. -/
def trimL (cs : List Char) : List Char :=
  ((cs.dropWhile isSpaceC).reverse.dropWhile isSpaceC).reverse

/-- ASCII lower-casing of one character (`str.lower()` on the inputs the menu
compares against). -/
def charLower (c : Char) : Char :=
  if 'A' ≤ c && c ≤ 'Z' then Char.ofNat (c.toNat + 32) else c

/-- `str.lower()` at the character-list level. -/
def toLowerL (cs : List Char) : List Char := cs.map charLower

/-- `choice.strip().lower()` applied to the raw prompt input. -/
def procInput (s : String) : List Char := toLowerL (trimL s.toList)

/-- Python `str.isdigit()` (ASCII digits; empty string is not a digit string). -/
def isDigitStr (cs : List Char) : Bool := !cs.isEmpty && cs.all Char.isDigit

/-- `int(choice)` on an all-digit string. -/
def digitsToNat (cs : List Char) : Nat :=
  cs.foldl (fun a c => a * 10 + (c.toNat - '0'.toNat)) 0

/-! ## RemoteStore model

`make_github_api_request` lives outside `src/`; per the spec it is the
transport collaborator, exposed to the core as a response per path.  The
shapes the core inspects are: a JSON array (directory listing), a JSON dict
carrying base64 `content`, some other JSON value, or a raised `SystemExit`
(how the transport surfaces HTTP errors, as witnessed by the
`except SystemExit` handlers throughout `src/`). -/

/-- One node reported by the contents API, as normalised by
`list_archive_files` (fields `name`, `path`, `type`, `sha`). -/
structure Entry where
  name : String
  path : String
  type : String
  sha : String
deriving DecidableEq, Repr

/-- Placeholder entry used only as the (unreachable) default of a checked
index lookup. -/
def defaultEntry : Entry := ⟨"", "", "", ""⟩

/-- Response of the transport for a GET on one path. -/
inductive ApiResponse where
  | entries (items : List Entry)
  | fileContent (sha : String) (content : List Nat)
  | otherJson
  | apiError
deriving DecidableEq

/-- `list_archive_files` (file.py:60-77): returns the mapped listing when the
response is a JSON array, and `[]` both when the response has another shape
and when the request raised `SystemExit`. -/
def list_archive_files (store : String → ApiResponse) (path : String) :
    List Entry :=
  match store path with
  | .entries items => items
  | .fileContent _ _ => []
  | .otherJson => []
  | .apiError => []

/-- Error taxonomy of the spec's RemoteStore contract (§4.1/§7). -/
inductive RemoteErr where
  | notFound
deriving DecidableEq

/-- Modelled from the spec: the §4.1 `list` contract ("fails with `NotFound`
if the path does not exist or is not a directory; returns an empty Listing if
the directory exists but is empty"), stated over the same transport responses
for comparison with `list_archive_files`. -/
def listSpec (store : String → ApiResponse) (path : String) :
    Except RemoteErr (List Entry) :=
  match store path with
  | .entries items => .ok items
  | _ => .error .notFound

/-! ## Remote and local trees -/

/-- A remote subtree: what the contents API would report below one directory.
File nodes carry the `sha` identity and the stored bytes. -/
inductive RNode where
  | file (name sha : String) (content : List Nat)
  | dir (name : String) (children : List RNode)

/-- A local directory tree (upload source); file nodes carry the bytes read
from disk. -/
inductive LNode where
  | file (name : String) (content : List Nat)
  | dir (name : String) (children : List LNode)

/-! ## ArchiveRepositoryResolver

`find_default_archive_repo` exists in two variants: file.py:31-57 scans the
ten candidate names `fown-archive`, `fown-archive1`, …, `fown-archive9`;
label.py:42-69 / script.py:43-68 scan every owned repository whose name
contains the substring `fown-archive`.  Both fetch `.fown/config.yml`,
base64-decode it, run `yaml.safe_load`, and accept the first candidate whose
parsed config is truthy with `config.get("default_repository") is True`.
Only `SystemExit` is caught; a decode/parse exception, or an
`AttributeError` from calling `.get` on a truthy non-mapping, propagates. -/

/-- Result of `yaml.safe_load` on the decoded config content.  `yerror`
stands for a raised exception (unparseable YAML, or an invalid-base64 decode
failure just before it). -/
inductive Yaml where
  | yerror
  | ynull
  | ybool (b : Bool)
  | ystr (s : String)
  | ymap (entries : List (String × Yaml))

/-- `dict.get` on a parsed mapping. -/
def yamlGet (m : List (String × Yaml)) (k : String) : Option Yaml :=
  match m.find? (fun e => e.1 = k) with
  | some e => some e.2
  | none => none

/-- What the transport returned for the candidate's `.fown/config.yml`. -/
inductive ConfigFetch where
  | apiError
  | notContentDict
  | content (y : Yaml)

/-- Outcome of examining one candidate inside the scan loop. -/
inductive CandidateOutcome where
  | matches
  | noMatch
  | crash
deriving DecidableEq

/-- The body `if config and config.get("default_repository") is True`:
falsy parses short-circuit to no-match; a truthy non-mapping crashes on
`.get` (`AttributeError`); only a mapping carrying the exact boolean `True`
matches. -/
def checkConfig : Yaml → CandidateOutcome
  | .yerror => .crash
  | .ynull => .noMatch
  | .ybool b => if b then .crash else .noMatch
  | .ystr s => if s = "" then .noMatch else .crash
  | .ymap m =>
    match yamlGet m "default_repository" with
    | some (.ybool true) => .matches
    | _ => .noMatch

/-- Examination of one candidate: a `SystemExit` from the GET is caught
(`continue`); a response without a content dict falls through the `if`;
otherwise the decoded content is parsed and checked. -/
def checkCandidate : ConfigFetch → CandidateOutcome
  | .apiError => .noMatch
  | .notContentDict => .noMatch
  | .content y => checkConfig y

/-- The resolver aborts with an uncaught exception. -/
inductive ResolveCrash where
  | uncaught
deriving DecidableEq

/-- The `for i in range(10)` loop of file.py:41-56 over the remaining
indices. -/
def scanCandidates (repoNames : List String)
    (config : String → ConfigFetch) (username : String) :
    List Nat → Except ResolveCrash (Bool × Option String × Option String)
  | [] => .ok (false, none, none)
  | i :: rest =>
    let suffix := if i = 0 then "" else toString i
    let repoName := "fown-archive" ++ suffix
    if repoNames.contains repoName then
      match checkCandidate (config repoName) with
      | .matches => .ok (true, some repoName, some username)
      | .noMatch => scanCandidates repoNames config username rest
      | .crash => .error .uncaught
    else scanCandidates repoNames config username rest

/-- `find_default_archive_repo` (file.py:31-57): numbered-suffix scan.
`username` is `get_github_username()`; `repoNames` the owned repository
names; `config` the transport's answer for each candidate's config file. -/
def find_default_archive_repo (username : Option String)
    (repoNames : List String) (config : String → ConfigFetch) :
    Except ResolveCrash (Bool × Option String × Option String) :=
  match username with
  | none => .ok (false, none, none)
  | some u => scanCandidates repoNames config u (List.range 10)

/-- The `for repo in repos` loop of script.py:54-65 (identical in
label.py): substring test, then the same candidate check. -/
def scanReposSub (config : String → ConfigFetch) (username : String) :
    List String → Except ResolveCrash (Bool × Option String × Option String)
  | [] => .ok (false, none, none)
  | name :: rest =>
    if substrIn "fown-archive".toList name.toList then
      match checkCandidate (config name) with
      | .matches => .ok (true, some name, some username)
      | .noMatch => scanReposSub config username rest
      | .crash => .error .uncaught
    else scanReposSub config username rest

/-- `find_default_archive_repo` (script.py:43-68, label.py:42-69):
substring scan over the fetched repository list (`repos = none` models a
`SystemExit` or non-list response from `user/repos`). -/
def find_default_archive_repo_sub (username : Option String)
    (repos : Option (List String)) (config : String → ConfigFetch) :
    Except ResolveCrash (Bool × Option String × Option String) :=
  match username with
  | none => .ok (false, none, none)
  | some u =>
    match repos with
    | none => .ok (false, none, none)
    | some rs => scanReposSub config u rs

/-- The config fetches for which the loop demonstrably continues: API
errors, responses without content, and content parsing to a falsy value or
to a mapping whose `default_repository` is not the exact boolean `True`. -/
def benignFetch : ConfigFetch → Bool
  | .apiError => true
  | .notContentDict => true
  | .content .ynull => true
  | .content (.ybool b) => !b
  | .content (.ystr s) => s = ""
  | .content (.ymap m) =>
    match yamlGet m "default_repository" with
    | some (.ybool true) => false
    | _ => true
  | .content .yerror => false

/-! ## NavigationEngine

`navigate_and_download` (file.py:247-283) and `navigate_and_delete`
(file.py:413-468) are `while True` loops over a mutable `current_path`.
One loop iteration is embedded as a step function; `leave` stands for
`return`/`break` (the loop — and hence the session — terminates), `again p`
for continuing the loop with `current_path = p`.  The interactive answers
(`Prompt.ask` with choices y/n) are passed in as booleans (`true` = "y"),
and the raw menu input as a string. -/

/-- Where one loop iteration sends the session. -/
inductive StepResult where
  | leave
  | again (path : String)
deriving DecidableEq

/-- Observable actions performed during one loop iteration. -/
inductive NavAction where
  | reportEmpty
  | reportInvalid
  | downloadOne (e : Entry)
  | downloadDir (path : String)
  | deleteOne (e : Entry)
  | deleteDir (path : String)
deriving DecidableEq

/-- `_validate_user_choice` (file.py:208-222): `choice.isdigit()` then a
1-based bound check. -/
def _validate_user_choice (choice : List Char) (itemsLength : Nat) :
    Option Nat :=
  if isDigitStr choice then
    let index := digitsToNat choice
    if 1 ≤ index ∧ index ≤ itemsLength then some index else none
  else none

/-- `_validate_delete_choice` (file.py:360-374): duplicated in the source,
with the identical body. -/
def _validate_delete_choice (choice : List Char) (itemsLength : Nat) :
    Option Nat :=
  if isDigitStr choice then
    let index := digitsToNat choice
    if 1 ≤ index ∧ index ≤ itemsLength then some index else none
  else none

/-- `_process_download_selection` (file.py:225-244): directory → prompt for
download-all ("y") vs descend ("n"); file → `download_item` then terminate.
Returns the loop's `next_path` (`none` terminates). -/
def _process_download_selection (dirAnswerY : Bool) (selected : Entry) :
    Option String × List NavAction :=
  if selected.type = "dir" then
    if dirAnswerY then (none, [.downloadDir selected.path])
    else (some selected.path, [])
  else (none, [.downloadOne selected])

/-- `_process_delete_selection` (file.py:377-410): directory → prompt for
delete-all ("y") vs descend ("n"), then a second confirmation; file →
confirmation then `delete_single_file`, and in either case the loop stays at
`current_path`. -/
def _process_delete_selection (dirAnswerY confirmY : Bool)
    (currentPath : String) (selected : Entry) :
    Option String × List NavAction :=
  if selected.type = "dir" then
    if dirAnswerY then
      if confirmY then (none, [.deleteDir selected.path])
      else (some currentPath, [])
    else (some selected.path, [])
  else
    if confirmY then (some currentPath, [.deleteOne selected])
    else (some currentPath, [])

/-- One iteration of `navigate_and_download` (file.py:249-283). -/
def navDownloadStep (store : String → ApiResponse) (current : String)
    (rawInput : String) (dirAnswerY : Bool) :
    StepResult × List NavAction :=
  let items := list_archive_files store current
  if items.isEmpty then (.leave, [.reportEmpty])
  else
    let choice := procInput rawInput
    if choice = ['q'] then (.leave, [])
    else if choice = ['b'] then
      if current = "files" then (.leave, [])
      else (.again (parentStr current), [])
    else
      match _validate_user_choice choice items.length with
      | none => (.again current, [.reportInvalid])
      | some index =>
        let selected := items.getD (index - 1) defaultEntry
        match _process_download_selection dirAnswerY selected with
        | (none, acts) => (.leave, acts)
        | (some next, acts) => (.again next, acts)

/-- One iteration of `navigate_and_delete` (file.py:415-468). -/
def navDeleteStep (store : String → ApiResponse) (current : String)
    (rawInput : String) (dirAnswerY confirmY : Bool) :
    StepResult × List NavAction :=
  let items := list_archive_files store current
  if items.isEmpty then
    if current = "files" then (.leave, [.reportEmpty])
    else (.again (parentStr current), [.reportEmpty])
  else
    let choice := procInput rawInput
    if choice = ['q'] then (.leave, [])
    else if choice = ['b'] then
      if current = "files" then (.leave, [])
      else (.again (parentStr current), [])
    else
      match _validate_delete_choice choice items.length with
      | none => (.again current, [.reportInvalid])
      | some index =>
        let selected := items.getD (index - 1) defaultEntry
        match _process_delete_selection dirAnswerY confirmY current selected with
        | (none, acts) => (.leave, acts)
        | (some next, acts) => (.again next, acts)

/-! ## TreeWalker: download

`download_single_file` (file.py:294-326) and `download_directory`
(file.py:329-346) are embedded as event-trace producers over a remote
subtree.  The transport outcome of the per-file GET is a parameter (`ok`
delivers the stored bytes; `notContent` is a response without a content
dict; `exn` a raised exception, caught by the function's handler). -/

/-- Outcome of the GET for one file's content. -/
inductive FetchKind where
  | ok
  | notContent
  | exn
deriving DecidableEq

/-- Events produced by the download functions, in program order. -/
inductive DlEvent where
  | getCall (path : String)
  | mkdirParent (dir : String)
  | promptOverwrite (path : String)
  | canceled (path : String)
  | wrote (localPath : String) (content : List Nat)
  | fetchWarn (name : String)
  | dlErr (name : String)
deriving DecidableEq

/-- `download_single_file` (file.py:294-326): GET the content; on success
build `local_path = local_dir / name`, `mkdir` its parent, ask before
overwriting an existing file (declining cancels just this file), then write;
a response without content warns; an exception is caught and reported. -/
def download_single_file_ev (outcome : FetchKind)
    (existsF answerY : String → Bool) (localDir : String) (item : Entry)
    (content : List Nat) : List DlEvent :=
  match outcome with
  | .exn => [.getCall item.path, .dlErr item.name]
  | .notContent => [.getCall item.path, .fetchWarn item.name]
  | .ok =>
    let localPath := localDir ++ "/" ++ item.name
    [.getCall item.path, .mkdirParent localDir] ++
      (if existsF localPath then
        if answerY localPath then [.promptOverwrite localPath, .wrote localPath content]
        else [.promptOverwrite localPath, .canceled localPath]
      else [.wrote localPath content])

/-- `download_directory` (file.py:329-346) unfolded over the remote subtree
below `dirPath`: the local base of each invocation is recomputed as
`Path.cwd() / Path(dir_path).name`, files are fetched into it, and the
recursion for a subdirectory passes only the subdirectory's remote path. -/
def download_directory_ev (mode : String → FetchKind)
    (existsF answerY : String → Bool) (cwd : String) :
    String → List RNode → List DlEvent
  | _, [] => []
  | dirPath, .file n sha c :: rest =>
    download_single_file_ev (mode (dirPath ++ "/" ++ n)) existsF answerY
        (cwd ++ "/" ++ baseName dirPath) ⟨n, dirPath ++ "/" ++ n, "file", sha⟩ c ++
      download_directory_ev mode existsF answerY cwd dirPath rest
  | dirPath, .dir n gs :: rest =>
    download_directory_ev mode existsF answerY cwd (dirPath ++ "/" ++ n) gs ++
      download_directory_ev mode existsF answerY cwd dirPath rest

/-- The local files written during a download trace. -/
def writesOf (tr : List DlEvent) : List (String × List Nat) :=
  tr.filterMap fun e =>
    match e with
    | .wrote p c => some (p, c)
    | _ => none

/-- The per-file GET calls issued during a download trace. -/
def getCallsOf (tr : List DlEvent) : List String :=
  tr.filterMap fun e =>
    match e with
    | .getCall p => some p
    | _ => none

/-- Modelled from the spec: §4.2 `downloadTree` ("for each File entry, reads
content and writes to `localBase/entry.name`; for each Directory entry,
recurse with `localBase/entry.name` as the new local base").  The local
writes this recursion produces, for comparison with
`download_directory_ev`. -/
def downloadTreeSpecWrites : String → List RNode → List (String × List Nat)
  | _, [] => []
  | base, .file n _ c :: rest =>
    (base ++ "/" ++ n, c) :: downloadTreeSpecWrites base rest
  | base, .dir n gs :: rest =>
    downloadTreeSpecWrites (base ++ "/" ++ n) gs ++
      downloadTreeSpecWrites base rest

/-- The remote file paths (with identities and bytes) in listing order below
a directory, subtree files of a directory child coming before the following
siblings. -/
def filesOfR : String → List RNode → List (String × String × List Nat)
  | _, [] => []
  | d, .file n sha c :: rest => (d ++ "/" ++ n, sha, c) :: filesOfR d rest
  | d, .dir n gs :: rest => filesOfR (d ++ "/" ++ n) gs ++ filesOfR d rest

/-! ## TreeWalker: delete -/

/-- Events produced by the delete functions.  `delDirCall` (an explicit
"delete directory" remote call) is included in the vocabulary precisely to
state that the code never issues one. -/
inductive DelEvent where
  | delCall (path sha : String)
  | delOk (path : String)
  | delErr (path : String)
  | delDirCall (path : String)
deriving DecidableEq

/-- `delete_single_file` (file.py:471-483): issue the DELETE carrying the
listed `sha`; success and caught failure are both reported and the function
returns normally either way. -/
def deleteSingleEv (failD : String → Bool) (path sha : String) :
    List DelEvent :=
  .delCall path sha :: (if failD path then [.delErr path] else [.delOk path])

/-- `delete_directory_recursive` (file.py:486-495) unfolded over the remote
subtree: list the directory, recurse into directory entries, delete file
entries, in listing order. -/
def delete_directory_recursive_ev (failD : String → Bool) :
    String → List RNode → List DelEvent
  | _, [] => []
  | d, .file n sha _ :: rest =>
    deleteSingleEv failD (d ++ "/" ++ n) sha ++
      delete_directory_recursive_ev failD d rest
  | d, .dir n gs :: rest =>
    delete_directory_recursive_ev failD (d ++ "/" ++ n) gs ++
      delete_directory_recursive_ev failD d rest

/-- The DELETE calls (path, sha) issued during a delete trace. -/
def delCallsOf (tr : List DelEvent) : List (String × String) :=
  tr.filterMap fun e =>
    match e with
    | .delCall p s => some (p, s)
    | _ => none

/-! ## TreeWalker: upload

`upload_directory` (file.py:125-159) walks the local tree with `os.walk`
(top-down: the files of a directory first, then each subdirectory in turn)
and PUTs every regular file to
`files/{dir_path.name}/{relative_path}`; a per-file failure is caught,
reported, and the walk continues.  `failU` tells which PUTs fail. -/

/-- Events produced by the upload walk. -/
inductive UpEvent where
  | putCall (path : String) (content : List Nat)
  | upOk (path : String)
  | upErr (path : String)
deriving DecidableEq

/-- The loop body for one regular file: the PUT is issued, then either the
success message or the caught-and-reported error. -/
def uploadFileEv (failU : String → Bool) (p : String) (c : List Nat) :
    List UpEvent :=
  .putCall p c :: (if failU p then [.upErr p] else [.upOk p])

/-- The files of one `os.walk` level (the current directory only), with
`r` the accumulated relative prefix below the upload root. -/
def uploadLevel (failU : String → Bool) (base r : String) :
    List LNode → List UpEvent
  | [] => []
  | .file n c :: rest =>
    uploadFileEv failU (base ++ (r ++ n)) c ++ uploadLevel failU base r rest
  | .dir _ _ :: rest => uploadLevel failU base r rest

/-- The recursive descent of `os.walk` into the subdirectories of a level,
each contributing its own files and then its recursive descent. -/
def uploadDirs (failU : String → Bool) (base : String) :
    String → List LNode → List UpEvent
  | _, [] => []
  | r, .file _ _ :: rest => uploadDirs failU base r rest
  | r, .dir n gs :: rest =>
    (uploadLevel failU base ((r ++ n) ++ "/") gs ++
        uploadDirs failU base ((r ++ n) ++ "/") gs) ++
      uploadDirs failU base r rest

/-- `upload_directory` (file.py:125-159): the full event trace, with
`base = "files/" ++ dirName ++ "/"` prefixed to every relative path, as the
source's f-string `repo_path` (line 132) prefixes `files/`, the upload
root's basename and a slash to the file's relative path. -/
def upload_directory_ev (failU : String → Bool) (dirName : String)
    (children : List LNode) : List UpEvent :=
  uploadLevel failU ("files/" ++ dirName ++ "/") "" children ++
    uploadDirs failU ("files/" ++ dirName ++ "/") "" children

/-- The regular files of a local tree with their relative paths and bytes,
in `os.walk` order (level files first, then each subdirectory's subtree). -/
def relLevel (r : String) : List LNode → List (String × List Nat)
  | [] => []
  | .file n c :: rest => (r ++ n, c) :: relLevel r rest
  | .dir _ _ :: rest => relLevel r rest

/-- The regular files contributed by the subdirectories of a level. -/
def relDirs : String → List LNode → List (String × List Nat)
  | _, [] => []
  | r, .file _ _ :: rest => relDirs r rest
  | r, .dir n gs :: rest =>
    (relLevel ((r ++ n) ++ "/") gs ++ relDirs ((r ++ n) ++ "/") gs) ++
      relDirs r rest

/-- All regular files of a local tree, with relative paths. -/
def relFilesOf (r : String) (children : List LNode) :
    List (String × List Nat) :=
  relLevel r children ++ relDirs r children

/-- The PUT calls (path, bytes) issued during an upload trace. -/
def putCallsOf (tr : List UpEvent) : List (String × List Nat) :=
  tr.filterMap fun e =>
    match e with
    | .putCall p c => some (p, c)
    | _ => none

/-! ## Helper lemmas -/

theorem delCallsOf_append (a b : List DelEvent) :
    delCallsOf (a ++ b) = delCallsOf a ++ delCallsOf b := by
  simp [delCallsOf, List.filterMap_append]

theorem delCallsOf_deleteSingleEv (failD : String → Bool) (p sha : String) :
    delCallsOf (deleteSingleEv failD p sha) = [(p, sha)] := by
  cases h : failD p <;> simp [deleteSingleEv, delCallsOf, h]

/-- The DELETE calls of the recursive delete are exactly the files of the
subtree, identities included, in traversal order. -/
theorem delCalls_eq (failD : String → Bool) (d : String) (cs : List RNode) :
    delCallsOf (delete_directory_recursive_ev failD d cs) =
      (filesOfR d cs).map (fun f => (f.1, f.2.1)) := by
  induction d, cs using filesOfR.induct with
  | case1 d => simp [delete_directory_recursive_ev, filesOfR, delCallsOf]
  | case2 d n sha c rest ih =>
    simp [delete_directory_recursive_ev, filesOfR, delCallsOf_append,
      delCallsOf_deleteSingleEv, ih]
  | case3 d n gs rest ih1 ih2 =>
    simp [delete_directory_recursive_ev, filesOfR, delCallsOf_append, ih1, ih2]

/-- The recursive delete never issues an explicit delete-directory call. -/
theorem no_delDirCall (failD : String → Bool) (d : String) (cs : List RNode)
    (p : String) :
    DelEvent.delDirCall p ∉ delete_directory_recursive_ev failD d cs := by
  induction d, cs using filesOfR.induct with
  | case1 d => simp [delete_directory_recursive_ev]
  | case2 d n sha c rest ih =>
    cases h : failD (d ++ "/" ++ n) <;>
      simp [delete_directory_recursive_ev, deleteSingleEv, h, ih]
  | case3 d n gs rest ih1 ih2 =>
    simp [delete_directory_recursive_ev, ih1, ih2]

theorem putCallsOf_append (a b : List UpEvent) :
    putCallsOf (a ++ b) = putCallsOf a ++ putCallsOf b := by
  simp [putCallsOf, List.filterMap_append]

theorem putCallsOf_uploadFileEv (failU : String → Bool) (p : String)
    (c : List Nat) : putCallsOf (uploadFileEv failU p c) = [(p, c)] := by
  cases h : failU p <;> simp [uploadFileEv, putCallsOf, h]

/-- The PUT calls of one `os.walk` level are its files prefixed by the fixed
remote base. -/
theorem putCalls_uploadLevel (failU : String → Bool) (base r : String)
    (cs : List LNode) :
    putCallsOf (uploadLevel failU base r cs) =
      (relLevel r cs).map (fun f => (base ++ f.1, f.2)) := by
  induction cs with
  | nil => simp [uploadLevel, relLevel, putCallsOf]
  | cons hd tl ih =>
    cases hd with
    | file n c =>
      simp [uploadLevel, relLevel, putCallsOf_append, putCallsOf_uploadFileEv, ih]
    | dir n gs => simp [uploadLevel, relLevel, ih]

/-- The PUT calls of the descent phase are the subdirectories' files prefixed
by the fixed remote base. -/
theorem putCalls_uploadDirs (failU : String → Bool) (base : String)
    (r : String) (cs : List LNode) :
    putCallsOf (uploadDirs failU base r cs) =
      (relDirs r cs).map (fun f => (base ++ f.1, f.2)) := by
  induction r, cs using relDirs.induct with
  | case1 r => simp [uploadDirs, relDirs, putCallsOf]
  | case2 r n c rest ih => simp [uploadDirs, relDirs, ih]
  | case3 r n gs rest ih1 ih2 =>
    simp [uploadDirs, relDirs, putCallsOf_append, putCalls_uploadLevel, ih1, ih2]

/-- The PUT calls of `upload_directory` are exactly the regular files of the
tree, each at `files/<dirName>/<relative path>`. -/
theorem putCalls_upload (failU : String → Bool) (dirName : String)
    (cs : List LNode) :
    putCallsOf (upload_directory_ev failU dirName cs) =
      (relFilesOf "" cs).map
        (fun f => (("files/" ++ dirName ++ "/") ++ f.1, f.2)) := by
  simp [upload_directory_ev, relFilesOf, putCallsOf_append,
    putCalls_uploadLevel, putCalls_uploadDirs]

theorem getCallsOf_append (a b : List DlEvent) :
    getCallsOf (a ++ b) = getCallsOf a ++ getCallsOf b := by
  simp [getCallsOf, List.filterMap_append]

theorem getCallsOf_single (outcome : FetchKind)
    (existsF answerY : String → Bool) (localDir : String) (item : Entry)
    (c : List Nat) :
    getCallsOf (download_single_file_ev outcome existsF answerY localDir item c) =
      [item.path] := by
  cases outcome with
  | exn => simp [download_single_file_ev, getCallsOf]
  | notContent => simp [download_single_file_ev, getCallsOf]
  | ok =>
    cases he : existsF (localDir ++ "/" ++ item.name) <;>
      cases ha : answerY (localDir ++ "/" ++ item.name) <;>
        simp [download_single_file_ev, getCallsOf, he, ha]

/-- Each file below the directory is fetched exactly once, whatever the
per-file outcomes are. -/
theorem getCalls_eq (mode : String → FetchKind)
    (existsF answerY : String → Bool) (cwd : String) (d : String)
    (cs : List RNode) :
    getCallsOf (download_directory_ev mode existsF answerY cwd d cs) =
      (filesOfR d cs).map (fun f => f.1) := by
  induction d, cs using filesOfR.induct with
  | case1 d => simp [download_directory_ev, filesOfR, getCallsOf]
  | case2 d n sha c rest ih =>
    simp [download_directory_ev, filesOfR, getCallsOf_append, getCallsOf_single, ih]
  | case3 d n gs rest ih1 ih2 =>
    simp [download_directory_ev, filesOfR, getCallsOf_append, ih1, ih2]

/-- Every benign config fetch makes the candidate a non-match (the scan
continues). -/
theorem benign_noMatch (f : ConfigFetch) (h : benignFetch f = true) :
    checkCandidate f = .noMatch := by
  cases f with
  | apiError => rfl
  | notContentDict => rfl
  | content y =>
    cases y with
    | yerror => simp [benignFetch] at h
    | ynull => rfl
    | ybool b =>
      cases b with
      | false => rfl
      | true => simp [benignFetch] at h
    | ystr s =>
      have hs : s = "" := by simpa [benignFetch] using h
      simp [checkCandidate, checkConfig, hs]
    | ymap m =>
      simp only [checkCandidate, checkConfig]
      cases hyg : yamlGet m "default_repository" with
      | none => simp [hyg]
      | some v =>
        cases v with
        | ybool b =>
          cases b with
          | true => simp [benignFetch, hyg] at h
          | false => simp [hyg]
        | yerror => simp [hyg]
        | ynull => simp [hyg]
        | ystr s => simp [hyg]
        | ymap m2 => simp [hyg]

/-- A numbered scan over candidates that all come out `noMatch` reaches the
not-found result. -/
theorem scan_all_noMatch (names : List String)
    (config : String → ConfigFetch) (u : String)
    (h : ∀ r, checkCandidate (config r) = .noMatch) :
    ∀ l : List Nat, scanCandidates names config u l = .ok (false, none, none) := by
  intro l
  induction l with
  | nil => rfl
  | cons i rest ih => simp [scanCandidates, h, ih]

/-- A substring scan over candidates that all come out `noMatch` reaches the
not-found result. -/
theorem scanSub_all_noMatch (config : String → ConfigFetch) (u : String)
    (h : ∀ r, checkCandidate (config r) = .noMatch) :
    ∀ rs : List String, scanReposSub config u rs = .ok (false, none, none) := by
  intro rs
  induction rs with
  | nil => rfl
  | cons name rest ih => simp [scanReposSub, h, ih]

/-- A `noMatch` head candidate is skipped by the numbered scan. -/
theorem scan_cons_noMatch (names : List String)
    (config : String → ConfigFetch) (u : String) (i : Nat) (l : List Nat)
    (h : checkCandidate
      (config ("fown-archive" ++ (if i = 0 then "" else toString i))) =
        .noMatch) :
    scanCandidates names config u (i :: l) = scanCandidates names config u l := by
  simp [scanCandidates, h]

/-- An owned, matching head candidate is returned by the numbered scan. -/
theorem scan_cons_match (names : List String)
    (config : String → ConfigFetch) (u : String) (i : Nat) (l : List Nat)
    (hc : names.contains
      ("fown-archive" ++ (if i = 0 then "" else toString i)) = true)
    (h : checkCandidate
      (config ("fown-archive" ++ (if i = 0 then "" else toString i))) =
        .matches) :
    scanCandidates names config u (i :: l) =
      .ok (true, some ("fown-archive" ++ (if i = 0 then "" else toString i)),
        some u) := by
  simp [scanCandidates, hc, h]
  intro hn
  exact absurd (by simpa using hc) hn

/-- In a duplicate-free list, a member is counted exactly once (stated over
the ambient `BEq` instance). -/
theorem count_one_of_nodup {α : Type} [BEq α] [LawfulBEq α] {l : List α}
    {a : α} (h : l.Nodup) (m : a ∈ l) : l.count a = 1 := by
  induction l with
  | nil => cases m
  | cons b t ih =>
    rcases List.mem_cons.mp m with rfl | mt
    · have hnot : a ∉ t := (List.nodup_cons.mp h).1
      simp [List.count_cons, List.count_eq_zero.mpr hnot]
    · have hne : a ≠ b := by
        rintro rfl
        exact (List.nodup_cons.mp h).1 mt
      simp [List.count_cons, ih (List.nodup_cons.mp h).2 mt, hne]

/-! ## Claim theorems -/

/-- C1: the claim states the directory download recurses with
`localBase/entry.name` as the new local base, so nested remote directories
reproduce the same nesting locally and downloaded bytes land at
`base/relative-path`.  The code instead recurses with only the
subdirectory's remote path (file.py:346) and each invocation rebases to
`cwd/basename(dir_path)` (file.py:339-340), flattening nesting: downloading
`files/docs` that contains `sub/a.txt` writes `./sub/a.txt`, while the
claimed recursion writes `./docs/sub/a.txt`. -/
theorem download_directory_flattens_nesting :
    writesOf (download_directory_ev (fun _ => .ok) (fun _ => false)
        (fun _ => false) "." "files/docs"
        [.dir "sub" [.file "a.txt" "s1" [1, 2]]]) =
      [("./sub/a.txt", [1, 2])] ∧
    downloadTreeSpecWrites "./docs" [.dir "sub" [.file "a.txt" "s1" [1, 2]]] =
      [("./docs/sub/a.txt", [1, 2])] ∧
    ("./sub/a.txt" : String) ≠ "./docs/sub/a.txt" := by
  refine ⟨?_, ?_, by decide⟩
  · simp [writesOf, download_directory_ev, download_single_file_ev, baseName,
      splitSlash]
  · simp [downloadTreeSpecWrites]

/-- C2 counterexample: in download mode, an empty listing at the non-root
path `files/sub` terminates the session (file.py:252-254 returns) instead of
popping to the parent `files` as the claim states for every mode. -/
theorem download_empty_nonroot_terminates :
    navDownloadStep
        (fun p => if p = "files/sub" then .entries [] else .apiError)
        "files/sub" "1" true = (.leave, [.reportEmpty]) ∧
    (navDownloadStep
        (fun p => if p = "files/sub" then .entries [] else .apiError)
        "files/sub" "1" true).1 ≠
      .again (parentStr "files/sub") := by
  refine ⟨by decide, by decide⟩

/-- C2 (amended): on an empty listing, delete mode reports "no items" and
pops to the parent (terminating at the root `files`), while download mode
reports "no items" and terminates at every path. -/
theorem empty_listing_step_behavior (store : String → ApiResponse)
    (current input : String) (dirAnswerY confirmY : Bool)
    (h : list_archive_files store current = []) :
    navDownloadStep store current input dirAnswerY = (.leave, [.reportEmpty]) ∧
    navDeleteStep store current input dirAnswerY confirmY =
      (if current = "files" then (.leave, [.reportEmpty])
        else (.again (parentStr current), [.reportEmpty])) := by
  constructor
  · simp [navDownloadStep, h]
  · rcases eq_or_ne current "files" with hc | hc
    · subst hc; simp [navDeleteStep, h]
    · simp [navDeleteStep, h, hc]

/-- C2 witness: delete mode at the empty non-root path pops to the parent. -/
theorem empty_listing_step_behavior_witness :
    navDownloadStep (fun _ => ApiResponse.entries []) "files/sub" "x" true =
      (.leave, [.reportEmpty]) ∧
    navDeleteStep (fun _ => ApiResponse.entries []) "files/sub" "x" true true =
      (.again "files", [.reportEmpty]) :=
  empty_listing_step_behavior (fun _ => ApiResponse.entries [])
    "files/sub" "x" true true rfl

/-- C3 counterexample: for a path that does not exist (every request errors)
the code's listing returns the empty list — the very value an existing empty
directory returns — while the claimed contract requires a `NotFound`
failure; no error is surfaced, so absence is not distinguished from
emptiness. -/
theorem list_absent_returns_empty_cex :
    list_archive_files (fun _ => ApiResponse.apiError) "files/x" = [] ∧
    list_archive_files
        (fun p => if p = "files/x" then ApiResponse.entries []
          else ApiResponse.apiError) "files/x" = [] ∧
    listSpec (fun _ => ApiResponse.apiError) "files/x" =
      Except.error RemoteErr.notFound :=
  ⟨rfl, rfl, rfl⟩

/-- C3 (amended): `list_archive_files` returns an empty Listing alike for a
path whose request fails, for a path that is a file rather than a directory,
and for an existing empty directory; the absent and empty cases are
indistinguishable in its result, and no `NotFound` error is surfaced. -/
theorem list_conflates_absence_and_emptiness
    (s1 s2 s3 : String → ApiResponse) (p sha : String) (c : List Nat)
    (h1 : s1 p = .apiError) (h2 : s2 p = .entries [])
    (h3 : s3 p = .fileContent sha c) :
    list_archive_files s1 p = [] ∧ list_archive_files s2 p = [] ∧
    list_archive_files s3 p = [] ∧
    list_archive_files s1 p = list_archive_files s2 p := by
  simp [list_archive_files, h1, h2, h3]

/-- C3 witness. -/
theorem list_conflates_absence_and_emptiness_witness :
    list_archive_files (fun _ => ApiResponse.apiError) "f" = [] ∧
    list_archive_files (fun _ => ApiResponse.entries []) "f" = [] ∧
    list_archive_files (fun _ => ApiResponse.fileContent "s" [1]) "f" = [] ∧
    list_archive_files (fun _ => ApiResponse.apiError) "f" =
      list_archive_files (fun _ => ApiResponse.entries []) "f" :=
  list_conflates_absence_and_emptiness _ _ _ "f" "s" [1] rfl rfl rfl

/-- C4 counterexample: with `fown-archive` owned but carrying an unparseable
`.fown/config.yml` and `fown-archive1` carrying the matching marker, the
resolver crashes (the parse exception is not `SystemExit` and is never
caught) instead of continuing to the next candidate as claimed. -/
theorem malformed_config_aborts_resolution_cex :
    find_default_archive_repo (some "user") ["fown-archive", "fown-archive1"]
        (fun r => if r = "fown-archive1"
          then .content (.ymap [("default_repository", .ybool true)])
          else .content .yerror) = .error .uncaught ∧
    find_default_archive_repo (some "user") ["fown-archive", "fown-archive1"]
        (fun r => if r = "fown-archive1"
          then .content (.ymap [("default_repository", .ybool true)])
          else .content .yerror) ≠
      .ok (true, some "fown-archive1", some "user") :=
  ⟨rfl, fun hc => Except.noConfusion hc⟩

/-- C4 (amended): candidates whose config fetch errors out via the API,
lacks a content dict, or parses to a falsy value or to a mapping without the
exact `default_repository: true` are treated as non-matching, and resolution
continues to the next candidate; only content whose decode/parse raises (or
parses to a truthy non-mapping) aborts resolution. -/
theorem benign_config_treated_nonmatching (f : ConfigFetch) (u : String)
    (names : List String) (config : String → ConfigFetch)
    (hf : benignFetch f = true)
    (hb : benignFetch (config "fown-archive") = true)
    (hm : checkCandidate (config "fown-archive1") = .matches)
    (hn : names = ["fown-archive", "fown-archive1"]) :
    checkCandidate f = .noMatch ∧
    find_default_archive_repo (some u) names config =
      .ok (true, some "fown-archive1", some u) := by
  refine ⟨benign_noMatch f hf, ?_⟩
  subst hn
  have step : find_default_archive_repo (some u)
      ["fown-archive", "fown-archive1"] config =
      scanCandidates ["fown-archive", "fown-archive1"] config u
        [0, 1, 2, 3, 4, 5, 6, 7, 8, 9] := rfl
  rw [step, scan_cons_noMatch _ _ _ 0 _ (benign_noMatch _ hb),
    scan_cons_match _ _ _ 1 _ (by decide) hm]
  rfl

/-- C4 witness: a candidate whose config file is missing (API error) is
skipped and the next candidate is accepted. -/
theorem benign_config_treated_nonmatching_witness :
    checkCandidate .apiError = .noMatch ∧
    find_default_archive_repo (some "user")
        ["fown-archive", "fown-archive1"]
        (fun r => if r = "fown-archive1"
          then .content (.ymap [("default_repository", .ybool true)])
          else .apiError) =
      .ok (true, some "fown-archive1", some "user") :=
  benign_config_treated_nonmatching .apiError "user" _ _ rfl rfl rfl rfl

/-- C5: the recursive delete issues exactly one DELETE per file below the
directory (each carrying the file's listed identity), never issues an
explicit delete-directory call, and all of a subtree's deletes are contained
in the trace the subtree's invocation returns (its calls are exactly the
subtree's files, children's deletes emitted before the invocation
returns). -/
theorem delete_tree_calls_exact (failD : String → Bool) (d : String)
    (cs : List RNode)
    (hnd : ((filesOfR d cs).map (fun f => f.1)).Nodup) :
    delCallsOf (delete_directory_recursive_ev failD d cs) =
      (filesOfR d cs).map (fun f => (f.1, f.2.1)) ∧
    (∀ p, DelEvent.delDirCall p ∉ delete_directory_recursive_ev failD d cs) ∧
    ∀ f ∈ filesOfR d cs,
      (delCallsOf (delete_directory_recursive_ev failD d cs)).count
        (f.1, f.2.1) = 1 := by
  refine ⟨delCalls_eq failD d cs, fun p => no_delDirCall failD d cs p, ?_⟩
  intro f hf
  rw [delCalls_eq]
  have hmap : ((filesOfR d cs).map (fun f => (f.1, f.2.1))).map Prod.fst =
      (filesOfR d cs).map (fun f => f.1) := by
    simp [List.map_map]
  have hnd2 : ((filesOfR d cs).map (fun f => (f.1, f.2.1))).Nodup :=
    List.Nodup.of_map Prod.fst (hmap ▸ hnd)
  exact count_one_of_nodup hnd2
    (List.mem_map_of_mem (fun f => (f.1, f.2.1)) hf)

/-- C5 witness: a two-level tree with one failing delete still yields one
DELETE per file, in order, and no delete-directory call. -/
theorem delete_tree_calls_exact_witness :
    delCallsOf (delete_directory_recursive_ev (fun p => p = "files/d/x")
        "files/d" [.file "x" "s1" [], .dir "sub" [.file "y" "s2" []]]) =
      (filesOfR "files/d"
        [.file "x" "s1" [], .dir "sub" [.file "y" "s2" []]]).map
          (fun f => (f.1, f.2.1)) ∧
    (∀ p, DelEvent.delDirCall p ∉
      delete_directory_recursive_ev (fun p => p = "files/d/x") "files/d"
        [.file "x" "s1" [], .dir "sub" [.file "y" "s2" []]]) ∧
    ∀ f ∈ filesOfR "files/d"
        [.file "x" "s1" [], .dir "sub" [.file "y" "s2" []]],
      (delCallsOf (delete_directory_recursive_ev (fun p => p = "files/d/x")
          "files/d"
          [.file "x" "s1" [], .dir "sub" [.file "y" "s2" []]])).count
        (f.1, f.2.1) = 1 :=
  delete_tree_calls_exact _ _ _ (by simp [filesOfR])

/-- C6: when a valid selection picks a File entry, download mode performs
the single-item download and the loop terminates, while delete mode asks for
confirmation, deletes on "y" (and does nothing on "n"), and in either case
stays browsing at the same path so further deletions are possible. -/
theorem file_selection_modes (store : String → ApiResponse)
    (current input : String) (dirAnswerY : Bool) (index : Nat)
    (hv : _validate_user_choice (procInput input)
      (list_archive_files store current).length = some index)
    (hfile : ((list_archive_files store current).getD (index - 1)
      defaultEntry).type ≠ "dir") :
    navDownloadStep store current input dirAnswerY =
      (.leave, [.downloadOne ((list_archive_files store current).getD
        (index - 1) defaultEntry)]) ∧
    navDeleteStep store current input dirAnswerY true =
      (.again current, [.deleteOne ((list_archive_files store current).getD
        (index - 1) defaultEntry)]) ∧
    navDeleteStep store current input dirAnswerY false =
      (.again current, []) := by
  have hdig : isDigitStr (procInput input) = true := by
    by_contra hx
    rw [Bool.not_eq_true] at hx
    simp [_validate_user_choice, hx] at hv
  have hbound : 1 ≤ digitsToNat (procInput input) ∧
      digitsToNat (procInput input) ≤
        (list_archive_files store current).length := by
    by_contra hx
    simp [_validate_user_choice, hdig, hx] at hv
  have hne : (list_archive_files store current).isEmpty = false := by
    rcases hbound with ⟨h1, h2⟩
    cases hl : list_archive_files store current with
    | nil =>
      rw [hl] at h2
      simp at h2
      omega
    | cons a t => simp
  have hq : procInput input ≠ ['q'] := by
    intro hx
    rw [hx] at hdig
    exact absurd hdig (by decide)
  have hb2 : procInput input ≠ ['b'] := by
    intro hx
    rw [hx] at hdig
    exact absurd hdig (by decide)
  have hv2 : _validate_delete_choice (procInput input)
      (list_archive_files store current).length = some index := hv
  simp only [List.getD, List.get?_eq_getElem?] at hfile
  refine ⟨?_, ?_, ?_⟩
  · simp [navDownloadStep, hne, hq, hb2, hv, _process_download_selection]
    simp [hfile]
  · simp [navDeleteStep, hne, hq, hb2, hv2, _process_delete_selection]
    simp [hfile]
  · simp [navDeleteStep, hne, hq, hb2, hv2, _process_delete_selection]
    simp [hfile]

/-- C6 witness: selecting the only file with input "1". -/
theorem file_selection_modes_witness :
    navDownloadStep
        (fun p => if p = "files" then
          .entries [⟨"a.txt", "files/a.txt", "file", "s1"⟩] else .apiError)
        "files" "1" true =
      (.leave, [.downloadOne ⟨"a.txt", "files/a.txt", "file", "s1"⟩]) ∧
    navDeleteStep
        (fun p => if p = "files" then
          .entries [⟨"a.txt", "files/a.txt", "file", "s1"⟩] else .apiError)
        "files" "1" true true =
      (.again "files", [.deleteOne ⟨"a.txt", "files/a.txt", "file", "s1"⟩]) ∧
    navDeleteStep
        (fun p => if p = "files" then
          .entries [⟨"a.txt", "files/a.txt", "file", "s1"⟩] else .apiError)
        "files" "1" true false =
      (.again "files", []) :=
  file_selection_modes _ "files" "1" true 1 (by decide) (by decide)

/-- C7 counterexample: with the only owned candidate's config unparseable,
no repository has a matching marker, yet the resolver crashes with an
uncaught exception instead of returning the claimed not-found result. -/
theorem no_marker_crash_not_notfound_cex :
    find_default_archive_repo (some "user") ["fown-archive"]
        (fun _ => .content .yerror) = .error .uncaught ∧
    find_default_archive_repo (some "user") ["fown-archive"]
        (fun _ => .content .yerror) ≠ .ok (false, none, none) :=
  ⟨rfl, fun hc => Except.noConfusion hc⟩

/-- C7 (amended): for the user owning `fown-archive` and `fown-archive1`
where only the latter's config parses with `default_repository: true`, both
resolver variants return that repository with the user's login; and whenever
every candidate check comes out non-matching (without raising) — or the user
identity cannot be determined — both variants return not-found. -/
theorem resolver_scenarios (username : String) (names repos : List String)
    (config : String → ConfigFetch)
    (hall : ∀ r, checkCandidate (config r) = .noMatch) :
    find_default_archive_repo (some "user") ["fown-archive", "fown-archive1"]
        (fun r => if r = "fown-archive1"
          then .content (.ymap [("default_repository", .ybool true)])
          else .content (.ymap [])) =
      .ok (true, some "fown-archive1", some "user") ∧
    find_default_archive_repo_sub (some "user")
        (some ["fown-archive", "fown-archive1"])
        (fun r => if r = "fown-archive1"
          then .content (.ymap [("default_repository", .ybool true)])
          else .content (.ymap [])) =
      .ok (true, some "fown-archive1", some "user") ∧
    find_default_archive_repo (some username) names config =
      .ok (false, none, none) ∧
    find_default_archive_repo_sub (some username) (some repos) config =
      .ok (false, none, none) ∧
    find_default_archive_repo none names config =
      .ok (false, none, none) := by
  refine ⟨rfl, rfl, ?_, ?_, rfl⟩
  · exact scan_all_noMatch names config username hall (List.range 10)
  · exact scanSub_all_noMatch config username hall repos

/-- C7 witness: no candidate matches (every config fetch errors), so both
variants return not-found. -/
theorem resolver_scenarios_witness :
    find_default_archive_repo (some "u2") ["other"]
        (fun _ => ConfigFetch.apiError) = .ok (false, none, none) ∧
    find_default_archive_repo_sub (some "u2") (some ["fown-archive-x"])
        (fun _ => ConfigFetch.apiError) = .ok (false, none, none) :=
  ⟨(resolver_scenarios "u2" ["other"] ["fown-archive-x"]
      (fun _ => ConfigFetch.apiError) (fun _ => rfl)).2.2.1,
    (resolver_scenarios "u2" ["other"] ["fown-archive-x"]
      (fun _ => ConfigFetch.apiError) (fun _ => rfl)).2.2.2.1⟩

/-- C8: the upload walk issues exactly one PUT per regular file of the local
tree, at `files/<root name>/<relative path>` with the file's bytes, and no
PUT for pure directory nodes (every PUT corresponds to a regular file and
the counts agree). -/
theorem upload_tree_writes_exact (failU : String → Bool) (dirName : String)
    (cs : List LNode)
    (hnd : ((relFilesOf "" cs).map
      (fun f => ("files/" ++ dirName ++ "/") ++ f.1)).Nodup) :
    putCallsOf (upload_directory_ev failU dirName cs) =
      (relFilesOf "" cs).map
        (fun f => (("files/" ++ dirName ++ "/") ++ f.1, f.2)) ∧
    (putCallsOf (upload_directory_ev failU dirName cs)).length =
      (relFilesOf "" cs).length ∧
    ∀ f ∈ relFilesOf "" cs,
      (putCallsOf (upload_directory_ev failU dirName cs)).count
        (("files/" ++ dirName ++ "/") ++ f.1, f.2) = 1 := by
  refine ⟨putCalls_upload failU dirName cs, ?_, ?_⟩
  · rw [putCalls_upload]
    simp
  · intro f hf
    rw [putCalls_upload]
    have hmap : ((relFilesOf "" cs).map
        (fun f => (("files/" ++ dirName ++ "/") ++ f.1, f.2))).map Prod.fst =
        (relFilesOf "" cs).map
          (fun f => ("files/" ++ dirName ++ "/") ++ f.1) := by
      simp [List.map_map]
    have hnd2 := List.Nodup.of_map Prod.fst (hmap ▸ hnd)
    exact count_one_of_nodup hnd2 (List.mem_map_of_mem _ hf)

/-- C8 witness: a two-level tree with one failing PUT still issues exactly
the two PUTs, one per regular file. -/
theorem upload_tree_writes_exact_witness :
    putCallsOf (upload_directory_ev (fun p => p = "files/proj/top.txt")
        "proj" [.file "top.txt" [7], .dir "sub" [.file "in.txt" [8]]]) =
      (relFilesOf ""
        [.file "top.txt" [7], .dir "sub" [.file "in.txt" [8]]]).map
          (fun f => (("files/" ++ "proj" ++ "/") ++ f.1, f.2)) ∧
    (putCallsOf (upload_directory_ev (fun p => p = "files/proj/top.txt")
        "proj" [.file "top.txt" [7], .dir "sub" [.file "in.txt" [8]]])).length =
      (relFilesOf ""
        [.file "top.txt" [7], .dir "sub" [.file "in.txt" [8]]]).length ∧
    ∀ f ∈ relFilesOf ""
        [.file "top.txt" [7], .dir "sub" [.file "in.txt" [8]]],
      (putCallsOf (upload_directory_ev (fun p => p = "files/proj/top.txt")
          "proj"
          [.file "top.txt" [7], .dir "sub" [.file "in.txt" [8]]])).count
        (("files/" ++ "proj" ++ "/") ++ f.1, f.2) = 1 :=
  upload_tree_writes_exact _ "proj" _
    (by simp [relFilesOf, relLevel, relDirs])

/-- C9: in all three bulk walks a per-item failure is caught where the item
is processed, so the remote calls issued do not depend on which items fail
(the walk continues past failures), and a failing item produces its reported
error event: the upload PUTs are failure-independent, a failing PUT is
followed by its error report, the DELETE calls are failure-independent, a
failing DELETE is followed by its error report, every file below a
directory is fetched exactly once whatever the per-file outcomes, and a
file whose fetch raises yields the caught-error report. -/
theorem bulk_ops_continue_on_failure :
    (∀ (failU : String → Bool) (dirName : String) (cs : List LNode),
      putCallsOf (upload_directory_ev failU dirName cs) =
        putCallsOf (upload_directory_ev (fun _ => false) dirName cs)) ∧
    (∀ (failU : String → Bool) (p : String) (c : List Nat),
      failU p = true → uploadFileEv failU p c = [.putCall p c, .upErr p]) ∧
    (∀ (failD : String → Bool) (d : String) (cs : List RNode),
      delCallsOf (delete_directory_recursive_ev failD d cs) =
        delCallsOf (delete_directory_recursive_ev (fun _ => false) d cs)) ∧
    (∀ (failD : String → Bool) (p sha : String),
      failD p = true →
        deleteSingleEv failD p sha = [.delCall p sha, .delErr p]) ∧
    (∀ (mode : String → FetchKind) (existsF answerY : String → Bool)
      (cwd d : String) (cs : List RNode),
      getCallsOf (download_directory_ev mode existsF answerY cwd d cs) =
        (filesOfR d cs).map (fun f => f.1)) ∧
    (∀ (existsF answerY : String → Bool) (localDir : String) (item : Entry)
      (c : List Nat),
      download_single_file_ev .exn existsF answerY localDir item c =
        [.getCall item.path, .dlErr item.name]) := by
  refine ⟨?_, ?_, ?_, ?_, ?_, ?_⟩
  · intro failU dirName cs
    rw [putCalls_upload, putCalls_upload]
  · intro failU p c h
    simp [uploadFileEv, h]
  · intro failD d cs
    rw [delCalls_eq, delCalls_eq]
  · intro failD p sha h
    simp [deleteSingleEv, h]
  · intro mode existsF answerY cwd d cs
    exact getCalls_eq mode existsF answerY cwd d cs
  · intro existsF answerY localDir item c
    rfl

/-- C9 witness: one failing PUT and one failing DELETE are each issued and
reported. -/
theorem bulk_ops_continue_on_failure_witness :
    uploadFileEv (fun _ => true) "p" [1] = [.putCall "p" [1], .upErr "p"] ∧
    deleteSingleEv (fun _ => true) "q" "s" = [.delCall "q" "s", .delErr "q"] :=
  ⟨bulk_ops_continue_on_failure.2.1 (fun _ => true) "p" [1] rfl,
    bulk_ops_continue_on_failure.2.2.2.1 (fun _ => true) "q" "s" rfl⟩

/-- C10: once the content fetch of a single-file download succeeds, the
destination's parent directory is created before any overwrite prompt (the
mkdir event is always the second event, right after the GET); when the
destination exists and the user declines, the trace is exactly GET, mkdir,
prompt, cancel — no write happens, so the existing bytes are untouched while
the created parent directory remains. -/
theorem mkdir_before_overwrite_prompt (existsF answerY : String → Bool)
    (localDir : String) (item : Entry) (c : List Nat)
    (hex : existsF (localDir ++ "/" ++ item.name) = true)
    (hans : answerY (localDir ++ "/" ++ item.name) = false) :
    download_single_file_ev .ok existsF answerY localDir item c =
      [.getCall item.path, .mkdirParent localDir,
        .promptOverwrite (localDir ++ "/" ++ item.name),
        .canceled (localDir ++ "/" ++ item.name)] ∧
    (∀ p c2, DlEvent.wrote p c2 ∉
      download_single_file_ev .ok existsF answerY localDir item c) ∧
    (∀ (ex2 ans2 : String → Bool),
      (download_single_file_ev .ok ex2 ans2 localDir item c).take 2 =
        [.getCall item.path, .mkdirParent localDir]) := by
  refine ⟨?_, ?_, ?_⟩
  · simp [download_single_file_ev, hex, hans]
  · intro p c2
    simp [download_single_file_ev, hex, hans]
  · intro ex2 ans2
    cases he : ex2 (localDir ++ "/" ++ item.name) <;>
      cases ha : ans2 (localDir ++ "/" ++ item.name) <;>
        simp [download_single_file_ev, he, ha]

/-- C10 witness: declining the overwrite leaves only mkdir, prompt, cancel
after the GET, with no write event. -/
theorem mkdir_before_overwrite_prompt_witness :
    download_single_file_ev .ok (fun _ => true) (fun _ => false) "."
        ⟨"a.txt", "files/a.txt", "file", "s1"⟩ [1] =
      [.getCall "files/a.txt", .mkdirParent ".",
        .promptOverwrite "./a.txt", .canceled "./a.txt"] ∧
    (∀ p c2, DlEvent.wrote p c2 ∉
      download_single_file_ev .ok (fun _ => true) (fun _ => false) "."
        ⟨"a.txt", "files/a.txt", "file", "s1"⟩ [1]) ∧
    (∀ (ex2 ans2 : String → Bool),
      (download_single_file_ev .ok ex2 ans2 "."
        ⟨"a.txt", "files/a.txt", "file", "s1"⟩ [1]).take 2 =
        [.getCall "files/a.txt", .mkdirParent "."]) :=
  mkdir_before_overwrite_prompt (fun _ => true) (fun _ => false) "."
    ⟨"a.txt", "files/a.txt", "file", "s1"⟩ [1] rfl rfl

end Fown
